import Mathlib

/-!
Verification of the behavior-plan-builder core against its specification.

The definitions below are a shallow embedding of the TypeScript source:

* `src/lib/assessment-questions.ts` — the rubric catalog, the scoring engine
  (`calculateFunctionScores`) and the function-determination procedure
  (`determinePrimaryFunction`).  JavaScript numbers are modelled as rationals
  (`ℚ`); every reachable score is an exact short decimal, and all comparisons
  performed by the code are far from the double-precision error margin, so the
  rational model agrees with the runtime behavior on all reachable inputs.
  JavaScript `Array.prototype.sort` is stable (ES2019), so the sort in
  `determinePrimaryFunction` is modelled by a stable descending insertion sort.
* the plan/revision API routes (`revise-section`, `update-section`,
  `revisions`, `revisions/restore`, `generate`, `coherence-check`) — the
  database is modelled as an explicit record store (`Store`): one plan record
  plus an append-only list of revision records, and each route handler becomes
  a state transformer on that store.  The external generation oracle is an
  explicit parameter (`Except` for the fallible coherence call).
-/

namespace BehaviorPlanBuilder

/-! ## Rubric catalog (src/lib/assessment-questions.ts) -/

/-- The four behavior-function categories, in the key order used by the
source object literals (escape, attention, access, sensory). -/
inductive BehaviorFunction
  | escape
  | attention
  | access
  | sensory
deriving DecidableEq, Repr

/-- The closed response vocabulary. -/
inductive ResponseValue
  | strongly_agree
  | agree
  | disagree
  | n_a
deriving DecidableEq, Repr

/-- One entry of the `responseOptions` table. -/
structure ResponseOption where
  value : ResponseValue
  label : String
  score : Option ℚ
deriving DecidableEq, Repr

/-- The `responseOptions` constant: response values with their numeric
weights (`n_a` carries `null`). -/
def responseOptions : List ResponseOption :=
  [ ⟨.strongly_agree, "Strongly Agree", some 3⟩
  , ⟨.agree, "Agree", some 2⟩
  , ⟨.disagree, "Disagree", some 1⟩
  , ⟨.n_a, "N/A", none⟩ ]

/-- The `functionQuestions` grouping inside `calculateFunctionScores`:
question numbers belonging to each category. -/
def functionQuestions : BehaviorFunction → List ℕ
  | .escape => [1, 2, 7, 11, 16]
  | .attention => [3, 4, 5, 6, 14]
  | .access => [8, 9, 12, 13, 17]
  | .sensory => [10, 15, 18, 19, 20, 21]

/-! ## Scoring engine -/

/-- An `AssessmentResponses` map: question number to response, partial.
The source keys by the decimal string of the question number; the key space
is modelled directly by `ℕ`. -/
def AssessmentResponses : Type := ℕ → Option ResponseValue

/-- `FunctionScores`: one optional score per category (`null` = no
applicable answers). -/
structure FunctionScores where
  escape : Option ℚ
  attention : Option ℚ
  access : Option ℚ
  sensory : Option ℚ
deriving DecidableEq, Repr

/-- Field access by category. -/
def FunctionScores.get (s : FunctionScores) : BehaviorFunction → Option ℚ
  | .escape => s.escape
  | .attention => s.attention
  | .access => s.access
  | .sensory => s.sensory

/-- `Math.round` on a rational: round half toward positive infinity. -/
def jsRound (x : ℚ) : ℤ := ⌊x + 1 / 2⌋

/-- The loop body of `calculateFunctionScores`: skip a missing or `n_a`
response, otherwise look the response up in `responseOptions` and, when a
numeric score is present, add it to the running total and bump the count. -/
def scoreStep (responses : AssessmentResponses) (acc : ℚ × ℕ) (q : ℕ) : ℚ × ℕ :=
  match responses q with
  | none => acc
  | some r =>
    if r = .n_a then acc
    else
      match responseOptions.find? (fun o => decide (o.value = r)) with
      | none => acc
      | some o =>
        match o.score with
        | none => acc
        | some w => (acc.1 + w, acc.2 + 1)

/-- Per-category body of `calculateFunctionScores`: accumulate `(total,
count)` over the category's questions; if `count > 0` the score is
`Math.round((total / count) * 100) / 100`, otherwise it stays `null`. -/
def categoryScore (responses : AssessmentResponses) (f : BehaviorFunction) : Option ℚ :=
  let acc := (functionQuestions f).foldl (scoreStep responses) (0, 0)
  if 0 < acc.2 then some ((jsRound ((acc.1 / (acc.2 : ℚ)) * 100) : ℚ) / 100) else none

/-- `calculateFunctionScores` from src/lib/assessment-questions.ts. -/
def calculateFunctionScores (responses : AssessmentResponses) : FunctionScores :=
  { escape := categoryScore responses .escape
  , attention := categoryScore responses .attention
  , access := categoryScore responses .access
  , sensory := categoryScore responses .sensory }

/-! ### Specification-side restatement of the scoring algorithm -/

/-- The weights the spec assigns directly: strongly_agree = 3, agree = 2,
disagree = 1, and no weight for "not applicable". -/
def weightOf : ResponseValue → Option ℚ
  | .strongly_agree => some 3
  | .agree => some 2
  | .disagree => some 1
  | .n_a => none

/-- The weights of the answered-and-applicable items of a category. -/
def answeredWeights (responses : AssessmentResponses) (f : BehaviorFunction) : List ℚ :=
  (functionQuestions f).filterMap (fun q => (responses q).bind weightOf)

/-- Round to 2 decimal places, half up. -/
def roundHalfUp2 (x : ℚ) : ℚ := ((⌊x * 100 + 1 / 2⌋ : ℤ) : ℚ) / 100

/-- The spec's description of a category score: sum of weights over count,
rounded to 2 decimals half-up, and `null` exactly when no item counts. -/
def specCategoryScore (responses : AssessmentResponses) (f : BehaviorFunction) : Option ℚ :=
  let ws := answeredWeights responses f
  if ws.length = 0 then none else some (roundHalfUp2 (ws.sum / (ws.length : ℚ)))

theorem scoreStep_eq (responses : AssessmentResponses) (acc : ℚ × ℕ) (q : ℕ) :
    scoreStep responses acc q =
      match (responses q).bind weightOf with
      | none => acc
      | some w => (acc.1 + w, acc.2 + 1) := by
  unfold scoreStep
  cases hq : responses q with
  | none => rfl
  | some r => cases r <;> rfl

theorem foldl_scoreStep (responses : AssessmentResponses) :
    ∀ (qs : List ℕ) (t : ℚ) (c : ℕ),
      qs.foldl (scoreStep responses) (t, c) =
        (t + (qs.filterMap (fun q => (responses q).bind weightOf)).sum,
         c + (qs.filterMap (fun q => (responses q).bind weightOf)).length) := by
  intro qs
  induction qs with
  | nil => intro t c; simp
  | cons q qs ih =>
    intro t c
    rw [List.foldl_cons, scoreStep_eq]
    cases hw : (responses q).bind weightOf with
    | none => simp [List.filterMap_cons, hw, ih]
    | some w =>
      simp only [List.filterMap_cons, hw, List.sum_cons, List.length_cons]
      rw [ih]
      refine Prod.ext ?_ ?_
      · simp only; ring
      · simp only; omega

/-- The source's per-category computation agrees with the spec's direct
description. -/
theorem categoryScore_eq_spec (responses : AssessmentResponses) (f : BehaviorFunction) :
    categoryScore responses f = specCategoryScore responses f := by
  unfold categoryScore specCategoryScore answeredWeights
  rw [show ((0 : ℚ), (0 : ℕ)) = ((0 : ℚ), (0 : ℕ)) from rfl, foldl_scoreStep]
  simp only [zero_add]
  rcases Nat.eq_zero_or_pos ((functionQuestions f).filterMap
      (fun q => (responses q).bind weightOf)).length with h0 | hpos
  · simp [h0]
  · simp only [hpos, if_pos, if_neg (Nat.pos_iff_ne_zero.mp hpos)]
    unfold jsRound roundHalfUp2
    rw [div_mul_eq_mul_div]

/-- Example response set: escape items 1, 2, 7 answered with weights
3 + 2 + 2 = 7 over 3 applicable items. -/
def exampleC2Responses : AssessmentResponses := fun q =>
  if q = 1 then some .strongly_agree
  else if q = 2 then some .agree
  else if q = 7 then some .agree
  else none

/-- The everywhere-unanswered response set. -/
def emptyResponses : AssessmentResponses := fun _ => none

theorem exampleC2_eval :
    (calculateFunctionScores exampleC2Responses).get .escape = some (233 / 100) := by
  show categoryScore exampleC2Responses .escape = some (233 / 100)
  rw [categoryScore_eq_spec]
  have hw : answeredWeights exampleC2Responses .escape = [3, 2, 2] := by
    simp [answeredWeights, functionQuestions, exampleC2Responses, weightOf]
  simp only [specCategoryScore, hw]
  norm_num [roundHalfUp2]

/-- Claim C2: `calculateFunctionScores` scores each category by skipping
missing and "n_a" responses, averaging the weights (3/2/1) of the rest,
rounding half-up to 2 decimals (7 over 3 items gives exactly 2.33), and
yields `null` — not 0 — when no item counts. -/
theorem claim_C2_scoring (responses : AssessmentResponses) (f : BehaviorFunction) :
    (calculateFunctionScores responses).get f = specCategoryScore responses f ∧
    (answeredWeights responses f = [] → (calculateFunctionScores responses).get f = none) ∧
    (calculateFunctionScores exampleC2Responses).get .escape = some (233 / 100) := by
  have hget : (calculateFunctionScores responses).get f = categoryScore responses f := by
    cases f <;> rfl
  refine ⟨hget.trans (categoryScore_eq_spec responses f), ?_, exampleC2_eval⟩
  intro hnil
  rw [hget, categoryScore_eq_spec]
  unfold specCategoryScore
  rw [show answeredWeights responses f = [] from hnil]
  rfl

/-- Witness for C2 at concrete inputs: the all-unanswered response set
yields a `null` escape score, and the 7-over-3 example yields 2.33. -/
theorem claim_C2_scoring_witness :
    (calculateFunctionScores emptyResponses).get .escape = none ∧
    (calculateFunctionScores exampleC2Responses).get .escape = some (233 / 100) :=
  ⟨(claim_C2_scoring emptyResponses .escape).2.1 rfl,
   (claim_C2_scoring emptyResponses .escape).2.2⟩

/-! ## Function determination (determinePrimaryFunction) -/

/-- One element of the `validScores` working array: a category together
with its non-null score. -/
structure ScoredFunc where
  func : BehaviorFunction
  score : ℚ
deriving DecidableEq, Repr

/-- `Object.keys(scores)` order of the `scores` literal. -/
def allFunctions : List BehaviorFunction := [.escape, .attention, .access, .sensory]

/-- The `validScores` array: categories with non-null scores, in key
order. -/
def validScores (scores : FunctionScores) : List ScoredFunc :=
  allFunctions.filterMap (fun f => (scores.get f).map (fun q => ⟨f, q⟩))

/-- Insert into a descending-sorted list, before the first element of
smaller-or-equal score (so earlier-listed categories stay first among equal
scores, as JavaScript's stable sort guarantees). -/
def insertDesc (x : ScoredFunc) : List ScoredFunc → List ScoredFunc
  | [] => [x]
  | y :: ys => if y.score ≤ x.score then x :: y :: ys else y :: insertDesc x ys

/-- Stable descending sort by score, modelling
`validScores.sort((a, b) => b.score - a.score)`. -/
def sortDesc : List ScoredFunc → List ScoredFunc
  | [] => []
  | x :: xs => insertDesc x (sortDesc xs)

/-- `primary` is either a single category or the string "multiple". -/
inductive Primary
  | func (f : BehaviorFunction)
  | multiple
deriving DecidableEq, Repr

/-- The `FunctionDetermination` result record; `tiedFunctions` is the
optional tied list. -/
structure FunctionDetermination where
  primary : Primary
  tiedFunctions : Option (List BehaviorFunction)
  allScores : FunctionScores
deriving DecidableEq, Repr

/-- The filter applied to the sorted array: within THRESHOLD = 0.3 of the
top score, and at least MIN_SCORE_FOR_TIE = 2.0. -/
def closePred (top : ℚ) (v : ScoredFunc) : Bool :=
  decide (top - 3 / 10 ≤ v.score) && decide (2 ≤ v.score)

/-- `determinePrimaryFunction` from src/lib/assessment-questions.ts.
The empty-match branch is the source's `validScores.length === 0` check
(the sort of an empty array is empty), and `highest` is the first element
of the sorted array. -/
def determinePrimaryFunction (scores : FunctionScores) : FunctionDetermination :=
  match sortDesc (validScores scores) with
  | [] => { primary := .multiple, tiedFunctions := some [], allScores := scores }
  | highest :: rest =>
    let close := (highest :: rest).filter (closePred highest.score)
    if 1 < close.length then
      { primary := .multiple
      , tiedFunctions := some (close.map (fun v => v.func))
      , allScores := scores }
    else
      { primary := .func highest.func, tiedFunctions := none, allScores := scores }

/-! ### Specification-side notions for the determination -/

/-- Maximum of a list (none when empty). -/
def listMax? {α : Type} [LinearOrder α] : List α → Option α
  | [] => none
  | x :: xs => some (xs.foldl max x)

/-- The highest non-null score, when one exists. -/
def topScore? (scores : FunctionScores) : Option ℚ :=
  listMax? ((validScores scores).map (fun v => v.score))

/-- The closeness band of the spec: categories whose score is within 0.3
of `top` and at least 2.0 (taken in the canonical category order). -/
def band (scores : FunctionScores) (top : ℚ) : List ScoredFunc :=
  (validScores scores).filter (closePred top)

theorem insertDesc_perm (x : ScoredFunc) (l : List ScoredFunc) :
    (insertDesc x l).Perm (x :: l) := by
  induction l with
  | nil => simp [insertDesc]
  | cons y ys ih =>
    unfold insertDesc
    by_cases h : y.score ≤ x.score
    · simp [h]
    · simp only [h, if_false]
      exact ((ih.cons y).trans (List.Perm.swap x y ys))

theorem sortDesc_perm (l : List ScoredFunc) : (sortDesc l).Perm l := by
  induction l with
  | nil => simp [sortDesc]
  | cons x xs ih =>
    unfold sortDesc
    exact (insertDesc_perm x (sortDesc xs)).trans (ih.cons x)

/-- Descending order as a pairwise relation. -/
def DescOrdered (l : List ScoredFunc) : Prop :=
  l.Pairwise (fun a b => b.score ≤ a.score)

theorem insertDesc_pairwise (x : ScoredFunc) (l : List ScoredFunc)
    (h : DescOrdered l) : DescOrdered (insertDesc x l) := by
  induction l with
  | nil => simp [insertDesc, DescOrdered]
  | cons y ys ih =>
    unfold insertDesc
    rcases List.pairwise_cons.mp h with ⟨hy, hys⟩
    by_cases hc : y.score ≤ x.score
    · simp only [hc, if_true]
      refine List.pairwise_cons.mpr ⟨?_, h⟩
      intro v hv
      rcases List.mem_cons.mp hv with rfl | hv'
      · exact hc
      · exact (hy v hv').trans hc
    · simp only [hc, if_false]
      refine List.pairwise_cons.mpr ⟨?_, ih hys⟩
      intro v hv
      have hv' : v ∈ x :: ys := (insertDesc_perm x ys).mem_iff.mp hv
      rcases List.mem_cons.mp hv' with rfl | hv''
      · exact le_of_lt (lt_of_not_le hc)
      · exact hy v hv''

theorem sortDesc_pairwise (l : List ScoredFunc) : DescOrdered (sortDesc l) := by
  induction l with
  | nil => simp [sortDesc, DescOrdered]
  | cons x xs ih => exact insertDesc_pairwise x (sortDesc xs) ih

theorem foldl_max_le {α : Type} [LinearOrder α] :
    ∀ (xs : List α) (a : α), a ≤ xs.foldl max a ∧
      (xs.foldl max a = a ∨ xs.foldl max a ∈ xs) ∧
      ∀ x ∈ xs, x ≤ xs.foldl max a := by
  intro xs
  induction xs with
  | nil => intro a; refine ⟨le_refl a, Or.inl rfl, by simp⟩
  | cons y ys ih =>
    intro a
    rcases ih (max a y) with ⟨h1, h2, h3⟩
    refine ⟨le_trans (le_max_left a y) h1, ?_, ?_⟩
    · rcases h2 with h2 | h2
      · rcases max_choice a y with hm | hm
        · exact Or.inl (by rw [List.foldl_cons, h2, hm])
        · exact Or.inr (by rw [List.foldl_cons, h2, hm]; exact List.mem_cons_self y ys)
      · exact Or.inr (List.mem_cons_of_mem y h2)
    · intro x hx
      rcases List.mem_cons.mp hx with rfl | hx'
      · exact le_trans (le_max_right a x) h1
      · exact h3 x hx'

theorem listMax?_spec {α : Type} [LinearOrder α] (l : List α) (m : α)
    (h : listMax? l = some m) : m ∈ l ∧ ∀ x ∈ l, x ≤ m := by
  cases l with
  | nil => simp [listMax?] at h
  | cons x xs =>
    simp only [listMax?, Option.some.injEq] at h
    subst h
    rcases foldl_max_le xs x with ⟨h1, h2, h3⟩
    constructor
    · rcases h2 with h2 | h2
      · rw [h2]; exact List.mem_cons_self x xs
      · exact List.mem_cons_of_mem x h2
    · intro y hy
      rcases List.mem_cons.mp hy with rfl | hy'
      · exact h1
      · exact h3 y hy'

theorem mem_validScores {scores : FunctionScores} {v : ScoredFunc}
    (h : v ∈ validScores scores) : scores.get v.func = some v.score := by
  unfold validScores at h
  rcases List.mem_filterMap.mp h with ⟨f, _, hf⟩
  rcases Option.map_eq_some'.mp hf with ⟨q, hq, hv⟩
  subst hv
  exact hq

theorem sortDesc_head_spec (scores : FunctionScores) (t : ℚ)
    (h : topScore? scores = some t) :
    ∃ hd tl, sortDesc (validScores scores) = hd :: tl ∧ hd.score = t ∧
      scores.get hd.func = some t ∧ ∀ v ∈ validScores scores, v.score ≤ t := by
  rcases listMax?_spec _ _ h with ⟨hmem, hle⟩
  have hbound : ∀ v ∈ validScores scores, v.score ≤ t := by
    intro v hv
    exact hle _ (List.mem_map_of_mem (fun v => v.score) hv)
  rcases List.mem_map.mp hmem with ⟨w, hw, hwt⟩
  cases hsort : sortDesc (validScores scores) with
  | nil =>
    exact absurd ((sortDesc_perm (validScores scores)).symm.mem_iff.mp hw)
      (by rw [hsort]; exact List.not_mem_nil w)
  | cons hd tl =>
    have hdmem : hd ∈ validScores scores :=
      (sortDesc_perm (validScores scores)).mem_iff.mp (by rw [hsort]; exact List.mem_cons_self hd tl)
    have hwmem : w ∈ hd :: tl := by
      rw [← hsort]; exact (sortDesc_perm (validScores scores)).symm.mem_iff.mp hw
    have hpair := sortDesc_pairwise (validScores scores)
    rw [hsort] at hpair
    have hwle : w.score ≤ hd.score := by
      rcases List.mem_cons.mp hwmem with rfl | hw'
      · exact le_refl _
      · exact (List.pairwise_cons.mp hpair).1 w hw'
    have hdt : hd.score = t := le_antisymm (hbound hd hdmem) (hwt ▸ hwle)
    exact ⟨hd, tl, rfl, hdt, by rw [← hdt]; exact mem_validScores hdmem, hbound⟩

theorem dpf_eq_branch (scores : FunctionScores) (hd : ScoredFunc) (tl : List ScoredFunc)
    (hsort : sortDesc (validScores scores) = hd :: tl) :
    determinePrimaryFunction scores =
      if 1 < ((hd :: tl).filter (closePred hd.score)).length then
        { primary := .multiple
        , tiedFunctions := some (((hd :: tl).filter (closePred hd.score)).map (fun v => v.func))
        , allScores := scores }
      else
        { primary := .func hd.func, tiedFunctions := none, allScores := scores } := by
  unfold determinePrimaryFunction
  rw [hsort]

theorem close_perm_band (scores : FunctionScores) (hd : ScoredFunc) (tl : List ScoredFunc)
    (hsort : sortDesc (validScores scores) = hd :: tl) :
    ((hd :: tl).filter (closePred hd.score)).Perm (band scores hd.score) := by
  unfold band
  rw [← hsort]
  exact (sortDesc_perm (validScores scores)).filter (closePred hd.score)

/-- Claim C1: with at least one non-null score, `determinePrimaryFunction`
takes the highest score as `top`, keeps the categories within 0.3 of `top`
that also score at least 2.0, answers "multiple" with exactly those
categories when more than one passes, and otherwise the single top category
with no tied list.  On `{escape: 2.6, attention: 2.4, access: 1.0, sensory:
null}` it answers "multiple" with tied `[escape, attention]`. -/
theorem claim_C1_determination (scores : FunctionScores) (t : ℚ)
    (h : topScore? scores = some t) :
    (1 < (band scores t).length →
      (determinePrimaryFunction scores).primary = .multiple ∧
      ∃ l, (determinePrimaryFunction scores).tiedFunctions = some l ∧
        l.Perm ((band scores t).map (fun v => v.func))) ∧
    ((band scores t).length ≤ 1 →
      ∃ f, scores.get f = some t ∧
        determinePrimaryFunction scores =
          { primary := .func f, tiedFunctions := none, allScores := scores }) ∧
    determinePrimaryFunction ⟨some (13 / 5), some (12 / 5), some 1, none⟩ =
      { primary := .multiple
      , tiedFunctions := some [.escape, .attention]
      , allScores := ⟨some (13 / 5), some (12 / 5), some 1, none⟩ } := by
  rcases sortDesc_head_spec scores t h with ⟨hd, tl, hsort, hdt, hget, _⟩
  subst hdt
  have hperm := close_perm_band scores hd tl hsort
  have hlen := hperm.length_eq
  have hbranch := dpf_eq_branch scores hd tl hsort
  refine ⟨?_, ?_, ?_⟩
  · intro hgt
    rw [hbranch, if_pos (by rw [hlen]; exact hgt)]
    exact ⟨rfl, ((hd :: tl).filter (closePred hd.score)).map (fun v => v.func), rfl,
      hperm.map (fun v => v.func)⟩
  · intro hle
    refine ⟨hd.func, hget, ?_⟩
    rw [hbranch, if_neg (by rw [hlen]; omega)]
  · have hvalid : validScores ⟨some (13 / 5), some (12 / 5), some 1, none⟩ =
        [⟨.escape, 13 / 5⟩, ⟨.attention, 12 / 5⟩, ⟨.access, 1⟩] := rfl
    have hsorted : sortDesc [⟨.escape, 13 / 5⟩, ⟨.attention, (12 : ℚ) / 5⟩, ⟨.access, 1⟩] =
        [⟨.escape, 13 / 5⟩, ⟨.attention, 12 / 5⟩, ⟨.access, 1⟩] := by
      norm_num [sortDesc, insertDesc]
    unfold determinePrimaryFunction
    rw [hvalid, hsorted]
    simp only [List.filter, closePred]
    norm_num

/-- Claim C4: with every category score null, `determinePrimaryFunction`
returns "multiple" with an empty tied list. -/
theorem claim_C4_no_evidence (scores : FunctionScores)
    (h : ∀ f, scores.get f = none) :
    determinePrimaryFunction scores =
      { primary := .multiple, tiedFunctions := some [], allScores := scores } := by
  obtain ⟨e, a, ac, s⟩ := scores
  have he := h .escape
  have ha := h .attention
  have hac := h .access
  have hs := h .sensory
  simp only [FunctionScores.get] at he ha hac hs
  subst he ha hac hs
  rfl

/-- Witness for C4 at the concrete all-null map. -/
theorem claim_C4_no_evidence_witness :
    determinePrimaryFunction ⟨none, none, none, none⟩ =
      { primary := .multiple, tiedFunctions := some []
      , allScores := ⟨none, none, none, none⟩ } :=
  claim_C4_no_evidence ⟨none, none, none, none⟩ (fun f => by cases f <;> rfl)

/-- Claim C10: when the highest non-null score is below the 2.0 floor, the
single top category is returned, never "multiple"; and whenever the answer
is "multiple" with a non-empty tied list, the top category is in that list
and the top score is at least 2.0. -/
theorem claim_C10_floor (scores : FunctionScores) (t : ℚ)
    (h : topScore? scores = some t) :
    (t < 2 → ∃ f, scores.get f = some t ∧
      determinePrimaryFunction scores =
        { primary := .func f, tiedFunctions := none, allScores := scores }) ∧
    (∀ l, (determinePrimaryFunction scores).primary = .multiple →
      (determinePrimaryFunction scores).tiedFunctions = some l → l ≠ [] →
      2 ≤ t ∧ ∃ f, f ∈ l ∧ scores.get f = some t) := by
  rcases sortDesc_head_spec scores t h with ⟨hd, tl, hsort, hdt, hget, hbound⟩
  subst hdt
  have hbranch := dpf_eq_branch scores hd tl hsort
  have hmemtl : ∀ v ∈ hd :: tl, v.score ≤ hd.score := by
    intro v hv
    refine hbound v ?_
    rw [← hsort] at hv
    exact (sortDesc_perm (validScores scores)).mem_iff.mp hv
  constructor
  · intro hlt
    have hnil : (hd :: tl).filter (closePred hd.score) = [] := by
      rw [List.filter_eq_nil_iff]
      intro v hv hcp
      have h2 : (2 : ℚ) ≤ v.score := by
        have := (Bool.and_eq_true _ _).mp hcp
        exact of_decide_eq_true this.2
      exact absurd (h2.trans (hmemtl v hv)) (not_le.mpr hlt)
    refine ⟨hd.func, hget, ?_⟩
    rw [hbranch, hnil]
    norm_num
  · intro l hprim htied hne
    by_cases hgt : 1 < ((hd :: tl).filter (closePred hd.score)).length
    · rw [hbranch, if_pos hgt] at htied
      have hl : l = ((hd :: tl).filter (closePred hd.score)).map (fun v => v.func) :=
        (Option.some.injEq _ _ ▸ htied).symm
      have hcne : (hd :: tl).filter (closePred hd.score) ≠ [] := by
        intro hnil; rw [hnil] at hgt; simp at hgt
      rcases List.exists_mem_of_ne_nil _ hcne with ⟨v, hv⟩
      rcases List.mem_filter.mp hv with ⟨hvmem, hvp⟩
      have hv2 : (2 : ℚ) ≤ v.score :=
        of_decide_eq_true ((Bool.and_eq_true _ _).mp hvp).2
      have h2t : (2 : ℚ) ≤ hd.score := hv2.trans (hmemtl v hvmem)
      have hhdclose : hd ∈ (hd :: tl).filter (closePred hd.score) := by
        refine List.mem_filter.mpr ⟨List.mem_cons_self hd tl, ?_⟩
        unfold closePred
        refine (Bool.and_eq_true _ _).mpr ⟨decide_eq_true ?_, decide_eq_true ?_⟩
        · linarith
        · exact h2t
      refine ⟨h2t, hd.func, ?_, hget⟩
      rw [hl]
      exact List.mem_map_of_mem (fun v => v.func) hhdclose
    · rw [hbranch, if_neg hgt] at hprim
      simp at hprim

/-- Witness for C1: the tie example applied through the theorem. -/
theorem claim_C1_determination_witness :
    (determinePrimaryFunction ⟨some (13 / 5), some (12 / 5), some 1, none⟩).primary =
        .multiple ∧
    ∃ l, (determinePrimaryFunction
        ⟨some (13 / 5), some (12 / 5), some 1, none⟩).tiedFunctions = some l ∧
      l.Perm ((band ⟨some (13 / 5), some (12 / 5), some 1, none⟩ (13 / 5)).map
        (fun v => v.func)) := by
  have hvalid : validScores ⟨some (13 / 5), some (12 / 5), some 1, none⟩ =
      [⟨.escape, 13 / 5⟩, ⟨.attention, 12 / 5⟩, ⟨.access, 1⟩] := rfl
  have htop : topScore? ⟨some (13 / 5), some (12 / 5), some 1, none⟩ = some (13 / 5) := by
    unfold topScore?
    rw [hvalid]
    norm_num [listMax?, List.foldl, max_def]
  have hband : 1 < (band ⟨some (13 / 5), some (12 / 5), some 1, none⟩ (13 / 5)).length := by
    unfold band
    rw [hvalid]
    norm_num [List.filter_cons, closePred, Bool.and_eq_true, decide_eq_true_eq]
  exact (claim_C1_determination ⟨some (13 / 5), some (12 / 5), some 1, none⟩ (13 / 5) htop).1
    hband

/-- Witness for C10: scores `{escape: 1.9, attention: 1.8}` — the top score
is below the 2.0 floor, so a single category is returned even though
attention is within 0.3 of escape. -/
theorem claim_C10_floor_witness :
    ∃ f, FunctionScores.get ⟨some (19 / 10), some (18 / 10), none, none⟩ f =
        some (19 / 10) ∧
      determinePrimaryFunction ⟨some (19 / 10), some (18 / 10), none, none⟩ =
        { primary := .func f, tiedFunctions := none
        , allScores := ⟨some (19 / 10), some (18 / 10), none, none⟩ } := by
  have hvalid : validScores ⟨some (19 / 10), some (18 / 10), none, none⟩ =
      [⟨.escape, 19 / 10⟩, ⟨.attention, 18 / 10⟩] := rfl
  have htop : topScore? ⟨some (19 / 10), some (18 / 10), none, none⟩ = some (19 / 10) := by
    unfold topScore?
    rw [hvalid]
    norm_num [listMax?, List.foldl, max_def]
  exact (claim_C10_floor ⟨some (19 / 10), some (18 / 10), none, none⟩ (19 / 10) htop).1
    (by norm_num)

/-! ## Plan section / revision workflow

The record store is modelled explicitly: one plan row plus the append-only
`plan_section_revisions` table (a list in insertion order).  Each API route
handler becomes a state transformer on this `Store`; the generation oracle
output is an explicit parameter (routes only write after a successful
oracle call, so the failure path leaves the store untouched). -/

/-- The five plan section kinds (`section_name` values). -/
inductive SectionName
  | function_summary
  | replacement_behavior
  | prevention_strategies
  | reinforcement_plan
  | response_to_behavior
deriving DecidableEq, Repr

/-- Stored section content.  The database column is TEXT; prevention
strategies are stored as the JSON serialization of a string array, modelled
abstractly by the `strategies` constructor. -/
inductive SectionContent
  | text (s : String)
  | strategies (l : List String)
deriving DecidableEq, Repr

/-- The plan row (the columns the revision workflow touches). -/
structure PlanRecord where
  generation_version : ℕ
  sections_reviewed : List SectionName
  status : String
  revision_counts : SectionName → ℕ
  generated_function_summary : Option SectionContent
  generated_replacement_behavior : Option SectionContent
  generated_prevention_strategies : Option SectionContent
  generated_reinforcement_plan : Option SectionContent
  generated_response_to_behavior : Option SectionContent
  current_function_summary : Option SectionContent
  current_replacement_behavior : Option SectionContent
  current_prevention_strategies : Option SectionContent
  current_reinforcement_plan : Option SectionContent
  current_response_to_behavior : Option SectionContent

/-- A `plan_section_revisions` row. -/
structure RevisionRecord where
  section_name : SectionName
  content : SectionContent
  revision_number : ℕ
  generation_version : ℕ
  feedback_given : Option String
  is_manual_edit : Bool
deriving DecidableEq, Repr

/-- The record store: the plan row plus its revision rows in insertion
order. -/
structure Store where
  plan : PlanRecord
  revisions : List RevisionRecord

/-- Read `current_<kind>`. -/
def getCurrent (p : PlanRecord) : SectionName → Option SectionContent
  | .function_summary => p.current_function_summary
  | .replacement_behavior => p.current_replacement_behavior
  | .prevention_strategies => p.current_prevention_strategies
  | .reinforcement_plan => p.current_reinforcement_plan
  | .response_to_behavior => p.current_response_to_behavior

/-- Read `generated_<kind>`. -/
def getGenerated (p : PlanRecord) : SectionName → Option SectionContent
  | .function_summary => p.generated_function_summary
  | .replacement_behavior => p.generated_replacement_behavior
  | .prevention_strategies => p.generated_prevention_strategies
  | .reinforcement_plan => p.generated_reinforcement_plan
  | .response_to_behavior => p.generated_response_to_behavior

/-- Write `current_<kind>` (the `[updateField]: content` dynamic update). -/
def setCurrent (p : PlanRecord) (s : SectionName) (c : Option SectionContent) : PlanRecord :=
  match s with
  | .function_summary => { p with current_function_summary := c }
  | .replacement_behavior => { p with current_replacement_behavior := c }
  | .prevention_strategies => { p with current_prevention_strategies := c }
  | .reinforcement_plan => { p with current_reinforcement_plan := c }
  | .response_to_behavior => { p with current_response_to_behavior := c }

/-- `revisionCounts[sectionName] = (revisionCounts[sectionName] || 0) + 1`. -/
def bumpCount (counts : SectionName → ℕ) (s : SectionName) : SectionName → ℕ :=
  fun x => if x = s then counts s + 1 else counts x

/-- The revision-number query: latest (maximum) `revision_number` among the
rows of this section and generation version (`order ... desc, limit 1`). -/
def latestRevisionNumber? (revs : List RevisionRecord) (s : SectionName) (gv : ℕ) :
    Option ℕ :=
  listMax? ((revs.filter
    (fun r => decide (r.section_name = s) && decide (r.generation_version = gv))).map
      (fun r => r.revision_number))

/-- `latestRevision ? latestRevision.revision_number + 1 : 1`. -/
def nextRevisionNumber (revs : List RevisionRecord) (s : SectionName) (gv : ℕ) : ℕ :=
  match latestRevisionNumber? revs s gv with
  | some n => n + 1
  | none => 1

/-- The update-section route (POST /api/plans/update-section): writes
`current_<kind>` and nothing else — no revision row is inserted. -/
def updateSection (st : Store) (s : SectionName) (c : SectionContent) : Store :=
  { st with plan := setCurrent st.plan s (some c) }

/-- `handleResetToOriginal` in step-behavior-details.tsx: when a generated
value exists, it is posted to the update-section route as the new current
content; otherwise nothing happens. -/
def resetToOriginal (st : Store) (s : SectionName) : Store :=
  match getGenerated st.plan s with
  | none => st
  | some c => updateSection st s c

/-- The manual-edit branch of the revise-section route: save the content
directly into `current_<kind>`, insert a revision row (feedback "Manual
edit", manual flag set) numbered by the latest-revision query, and bump the
revision count.  No shape validation is performed on the content. -/
def manualEdit (st : Store) (s : SectionName) (c : SectionContent) : Store :=
  let p1 := setCurrent st.plan s (some c)
  let n := nextRevisionNumber st.revisions s st.plan.generation_version
  { plan := { p1 with revision_counts := bumpCount p1.revision_counts s }
  , revisions := st.revisions ++
      [⟨s, c, n, st.plan.generation_version, some "Manual edit", true⟩] }

/-- The AI-revision branch of the revise-section route, after a successful
oracle call returning `newContent`: write `current_<kind>` and the bumped
revision count, then insert a revision row carrying the user feedback. -/
def aiRevise (st : Store) (s : SectionName) (feedback : String)
    (newContent : SectionContent) : Store :=
  let p1 := setCurrent st.plan s (some newContent)
  let n := nextRevisionNumber st.revisions s st.plan.generation_version
  { plan := { p1 with revision_counts := bumpCount p1.revision_counts s }
  , revisions := st.revisions ++
      [⟨s, newContent, n, st.plan.generation_version, some feedback, false⟩] }

/-- The restore route (POST /api/plans/revisions/restore): copy the fetched
revision's content into `current_<kind>` and insert a new revision row
recording the restore.  `plan?.generation_version || 1` maps a zero (falsy)
version to 1. -/
def restoreRevision (st : Store) (rv : RevisionRecord) : Store :=
  let p1 := setCurrent st.plan rv.section_name (some rv.content)
  let gv := if st.plan.generation_version = 0 then 1 else st.plan.generation_version
  let n := nextRevisionNumber st.revisions rv.section_name gv
  { plan := p1
  , revisions := st.revisions ++
      [⟨rv.section_name, rv.content, n, gv,
        some ("Restored from version " ++ toString rv.revision_number), false⟩] }

/-- The create-revision route (POST /api/plans/revisions). -/
def createRevision (st : Store) (s : SectionName) (c : SectionContent)
    (feedbackGiven : Option String) (isManualEdit : Bool) : Store :=
  let n := nextRevisionNumber st.revisions s st.plan.generation_version
  { st with revisions := st.revisions ++
      [⟨s, c, n, st.plan.generation_version, feedbackGiven, isManualEdit⟩] }

/-- The structured output of the initial full-plan generation oracle call. -/
structure GeneratedPlan where
  function_summary : String
  replacement_behavior : String
  prevention_strategies : List String
  reinforcement_plan : String
  response_to_behavior : String
deriving DecidableEq, Repr

/-- The generate route's plan update after a successful oracle call: set
every `generated_<kind>` and `current_<kind>`, set status "generating" and
clear `sections_reviewed`.  It writes nothing else: in particular it does
not touch `generation_version` and inserts or deletes no revision rows. -/
def generatePlanUpdate (st : Store) (g : GeneratedPlan) : Store :=
  { st with plan := { st.plan with
      generated_function_summary := some (.text g.function_summary)
      generated_replacement_behavior := some (.text g.replacement_behavior)
      generated_prevention_strategies := some (.strategies g.prevention_strategies)
      generated_reinforcement_plan := some (.text g.reinforcement_plan)
      generated_response_to_behavior := some (.text g.response_to_behavior)
      current_function_summary := some (.text g.function_summary)
      current_replacement_behavior := some (.text g.replacement_behavior)
      current_prevention_strategies := some (.strategies g.prevention_strategies)
      current_reinforcement_plan := some (.text g.reinforcement_plan)
      current_response_to_behavior := some (.text g.response_to_behavior)
      status := "generating"
      sections_reviewed := [] } }

/-- The zod schema of the generate route:
`prevention_strategies: z.array(z.string()).min(3).max(5)`. -/
def planSchemaCheck (g : GeneratedPlan) : Bool :=
  decide (3 ≤ g.prevention_strategies.length) && decide (g.prevention_strategies.length ≤ 5)

/-- The zod schema of the AI-revision call for prevention strategies:
`z.array(z.string()).min(3).max(3)`. -/
def revisePreventionSchemaCheck (l : List String) : Bool :=
  decide (3 ≤ l.length) && decide (l.length ≤ 3)

/-! ### Revision numbering facts -/

/-- The spec's `max(existing revisionNumber ..., default 0)`. -/
def maxRevNumber (revs : List RevisionRecord) (s : SectionName) (gv : ℕ) : ℕ :=
  ((revs.filter
    (fun r => decide (r.section_name = s) && decide (r.generation_version = gv))).map
      (fun r => r.revision_number)).foldl max 0

theorem nextRevisionNumber_eq (revs : List RevisionRecord) (s : SectionName) (gv : ℕ) :
    nextRevisionNumber revs s gv = 1 + maxRevNumber revs s gv := by
  unfold nextRevisionNumber latestRevisionNumber? maxRevNumber
  cases hf : (revs.filter
      (fun r => decide (r.section_name = s) && decide (r.generation_version = gv))).map
        (fun r => r.revision_number) with
  | nil => simp [listMax?]
  | cons x xs =>
    simp only [listMax?, List.foldl_cons, Nat.zero_max]
    omega

theorem lt_nextRevisionNumber (revs : List RevisionRecord) (s : SectionName) (gv : ℕ)
    (r : RevisionRecord) (hr : r ∈ revs) (hs : r.section_name = s)
    (hg : r.generation_version = gv) :
    r.revision_number < nextRevisionNumber revs s gv := by
  have hmem : r.revision_number ∈ (revs.filter
      (fun r => decide (r.section_name = s) && decide (r.generation_version = gv))).map
        (fun r => r.revision_number) := by
    refine List.mem_map_of_mem _ (List.mem_filter.mpr ⟨hr, ?_⟩)
    exact (Bool.and_eq_true _ _).mpr ⟨decide_eq_true hs, decide_eq_true hg⟩
  unfold nextRevisionNumber latestRevisionNumber?
  cases hmax : listMax? ((revs.filter
      (fun r => decide (r.section_name = s) && decide (r.generation_version = gv))).map
        (fun r => r.revision_number)) with
  | none =>
    cases hl : (revs.filter
        (fun r => decide (r.section_name = s) && decide (r.generation_version = gv))).map
          (fun r => r.revision_number) with
    | nil => rw [hl] at hmem; exact absurd hmem (List.not_mem_nil _)
    | cons x xs => rw [hl] at hmax; simp [listMax?] at hmax
  | some m =>
    have := (listMax?_spec _ m hmax).2 _ hmem
    show r.revision_number < m + 1
    omega

theorem getCurrent_setCurrent (p : PlanRecord) (s : SectionName)
    (c : Option SectionContent) : getCurrent (setCurrent p s c) s = c := by
  cases s <;> rfl

theorem getCurrent_counts (p : PlanRecord) (s : SectionName) (f : SectionName → ℕ) :
    getCurrent { p with revision_counts := f } s = getCurrent p s := by
  cases s <;> rfl

/-! ### Concrete stores for witnesses and counterexamples -/

/-- A concrete plan row: generation 1, replacement behavior manually edited
away from its generated original. -/
def basePlan : PlanRecord :=
  { generation_version := 1
  , sections_reviewed := []
  , status := "generating"
  , revision_counts := fun _ => 0
  , generated_function_summary := some (.text "summary")
  , generated_replacement_behavior := some (.text "orig")
  , generated_prevention_strategies := some (.strategies ["p1", "p2", "p3"])
  , generated_reinforcement_plan := some (.text "reinforce")
  , generated_response_to_behavior := some (.text "respond")
  , current_function_summary := some (.text "summary")
  , current_replacement_behavior := some (.text "edited")
  , current_prevention_strategies := some (.strategies ["p1", "p2", "p3"])
  , current_reinforcement_plan := some (.text "reinforce")
  , current_response_to_behavior := some (.text "respond") }

/-- A concrete store with an empty revision history. -/
def baseStore : Store := { plan := basePlan, revisions := [] }

/-- A concrete existing revision row. -/
def rev1 : RevisionRecord :=
  ⟨.replacement_behavior, .text "edited", 1, 1, some "feedback", false⟩

/-- A concrete store with one reviewed section and one revision row. -/
def storeC8 : Store :=
  { plan := { basePlan with sections_reviewed := [.replacement_behavior] }
  , revisions := [rev1] }

/-- A generation-oracle output whose prevention strategies have 4 entries. -/
def gPlan4 : GeneratedPlan :=
  ⟨"why", "replacement", ["a", "b", "c", "d"], "reinforce", "respond"⟩

/-! ### Claims about the revision workflow -/

/-- Counterexample to claim C3 as stated: reset-to-original goes through the
update-section route, which overwrites `current_replacement_behavior` (here
from "edited" back to "orig") while appending no revision record at all —
not exactly one. -/
theorem claim_C3_counterexample :
    (resetToOriginal baseStore .replacement_behavior).plan.current_replacement_behavior =
      some (.text "orig") ∧
    baseStore.plan.current_replacement_behavior = some (.text "edited") ∧
    (resetToOriginal baseStore .replacement_behavior).plan.current_replacement_behavior ≠
      baseStore.plan.current_replacement_behavior ∧
    ¬((resetToOriginal baseStore .replacement_behavior).revisions.length =
        baseStore.revisions.length + 1) := by
  exact ⟨rfl, rfl, by decide, by decide⟩

/-- Claim C3 as amended: AI-revise, manual edit and restore each append
exactly one revision record atomically with the `current_<kind>` mutation,
but reset-to-original copies `generated_<kind>` into `current_<kind>`
through the update-section endpoint and appends no revision record. -/
theorem claim_C3_revisions (st : Store) (s : SectionName) (fb : String)
    (c : SectionContent) (rv : RevisionRecord) :
    ((aiRevise st s fb c).revisions.length = st.revisions.length + 1 ∧
      getCurrent (aiRevise st s fb c).plan s = some c) ∧
    ((manualEdit st s c).revisions.length = st.revisions.length + 1 ∧
      getCurrent (manualEdit st s c).plan s = some c) ∧
    ((restoreRevision st rv).revisions.length = st.revisions.length + 1 ∧
      getCurrent (restoreRevision st rv).plan rv.section_name = some rv.content) ∧
    ((resetToOriginal st s).revisions = st.revisions ∧
      ∀ c0, getGenerated st.plan s = some c0 →
        getCurrent (resetToOriginal st s).plan s = some c0) := by
  refine ⟨⟨by simp [aiRevise], ?_⟩, ⟨by simp [manualEdit], ?_⟩,
    ⟨by simp [restoreRevision], ?_⟩, ?_, ?_⟩
  · show getCurrent { setCurrent st.plan s (some c) with
      revision_counts := bumpCount (setCurrent st.plan s (some c)).revision_counts s } s =
        some c
    rw [getCurrent_counts, getCurrent_setCurrent]
  · show getCurrent { setCurrent st.plan s (some c) with
      revision_counts := bumpCount (setCurrent st.plan s (some c)).revision_counts s } s =
        some c
    rw [getCurrent_counts, getCurrent_setCurrent]
  · show getCurrent (setCurrent st.plan rv.section_name (some rv.content))
        rv.section_name = some rv.content
    rw [getCurrent_setCurrent]
  · unfold resetToOriginal
    cases getGenerated st.plan s <;> rfl
  · intro c0 hc0
    unfold resetToOriginal
    rw [hc0]
    show getCurrent (setCurrent st.plan s (some c0)) s = some c0
    rw [getCurrent_setCurrent]

/-- Witness for the amended C3 at a concrete store: the reset copies the
generated original into the current value and leaves history empty. -/
theorem claim_C3_revisions_witness :
    (resetToOriginal baseStore .replacement_behavior).revisions = [] ∧
    getCurrent (resetToOriginal baseStore .replacement_behavior).plan
      .replacement_behavior = some (.text "orig") :=
  ⟨(claim_C3_revisions baseStore .replacement_behavior "fb" (.text "x") rev1).2.2.2.1,
   (claim_C3_revisions baseStore .replacement_behavior "fb" (.text "x") rev1).2.2.2.2
     (.text "orig") rfl⟩

/-- Counterexample to claim C5 as stated: a manual edit of
prevention_strategies whose content parses to 2 entries is not rejected —
both the current value and the revision history are written. -/
theorem claim_C5_counterexample :
    (["a", "b"] : List String).length ≠ 3 ∧
    (manualEdit baseStore .prevention_strategies
      (.strategies ["a", "b"])).plan.current_prevention_strategies =
      some (.strategies ["a", "b"]) ∧
    (manualEdit baseStore .prevention_strategies (.strategies ["a", "b"])).revisions =
      [⟨.prevention_strategies, .strategies ["a", "b"], 1, 1, some "Manual edit", true⟩] := by
  exact ⟨by decide, rfl, rfl⟩

/-- Claim C5 as amended: the manual-edit branch performs no shape
validation; prevention-strategies content with any entry count other than 3
is accepted, overwriting `current_prevention_strategies` and appending one
revision record tagged as a manual edit. -/
theorem claim_C5_manual_edit (st : Store) (l : List String) (h : l.length ≠ 3) :
    (manualEdit st .prevention_strategies
      (.strategies l)).plan.current_prevention_strategies = some (.strategies l) ∧
    (manualEdit st .prevention_strategies (.strategies l)).revisions =
      st.revisions ++ [⟨.prevention_strategies, .strategies l,
        nextRevisionNumber st.revisions .prevention_strategies
          st.plan.generation_version,
        st.plan.generation_version, some "Manual edit", true⟩] :=
  ⟨rfl, rfl⟩

/-- Witness for the amended C5 at a concrete 2-entry edit. -/
theorem claim_C5_manual_edit_witness :
    (manualEdit baseStore .prevention_strategies
      (.strategies ["a", "b"])).plan.current_prevention_strategies =
      some (.strategies ["a", "b"]) ∧
    (manualEdit baseStore .prevention_strategies (.strategies ["a", "b"])).revisions =
      baseStore.revisions ++ [⟨.prevention_strategies, .strategies ["a", "b"],
        nextRevisionNumber baseStore.revisions .prevention_strategies
          baseStore.plan.generation_version,
        baseStore.plan.generation_version, some "Manual edit", true⟩] :=
  claim_C5_manual_edit baseStore ["a", "b"] (by decide)

/-- Counterexample to claim C6 as stated: the initial generation schema
accepts 4 prevention strategies (`min(3).max(5)`), and the generate route
then makes that 4-entry list the current value. -/
theorem claim_C6_counterexample :
    planSchemaCheck gPlan4 = true ∧
    gPlan4.prevention_strategies.length ≠ 3 ∧
    (generatePlanUpdate baseStore gPlan4).plan.current_prevention_strategies =
      some (.strategies ["a", "b", "c", "d"]) := by
  exact ⟨by decide, by decide, rfl⟩

/-- Claim C6 as amended: the revision contract does enforce exactly 3
prevention strategies, but the initial generation contract only enforces
between 3 and 5, so a freshly generated current value may have 4 or 5
entries. -/
theorem claim_C6_schemas :
    (∀ l : List String, revisePreventionSchemaCheck l = true ↔ l.length = 3) ∧
    (∀ g : GeneratedPlan, planSchemaCheck g = true ↔
      (3 ≤ g.prevention_strategies.length ∧ g.prevention_strategies.length ≤ 5)) := by
  constructor
  · intro l
    simp only [revisePreventionSchemaCheck, Bool.and_eq_true, decide_eq_true_eq]
    omega
  · intro g
    simp only [planSchemaCheck, Bool.and_eq_true, decide_eq_true_eq]

/-- Counterexample to claim C8 as stated: a full rebuild leaves
`generation_version` unchanged at 1 — it is not incremented. -/
theorem claim_C8_counterexample :
    (generatePlanUpdate storeC8 gPlan4).plan.generation_version = 1 ∧
    storeC8.plan.generation_version = 1 ∧
    ¬((generatePlanUpdate storeC8 gPlan4).plan.generation_version =
        storeC8.plan.generation_version + 1) := by
  exact ⟨rfl, rfl, by decide⟩

/-- Claim C8 as amended: the rebuild regenerates every `generated_<kind>`
and `current_<kind>` from the fresh oracle output, clears the
reviewed-sections set, sets status to "generating", and deletes no prior
revision records — but it leaves `generation_version` unchanged rather than
incrementing it. -/
theorem claim_C8_rebuild (st : Store) (g : GeneratedPlan) :
    (generatePlanUpdate st g).plan.generation_version = st.plan.generation_version ∧
    (generatePlanUpdate st g).plan.sections_reviewed = [] ∧
    (generatePlanUpdate st g).plan.status = "generating" ∧
    (generatePlanUpdate st g).revisions = st.revisions ∧
    (∀ s, getGenerated (generatePlanUpdate st g).plan s =
      getCurrent (generatePlanUpdate st g).plan s) ∧
    (generatePlanUpdate st g).plan.generated_function_summary =
      some (.text g.function_summary) ∧
    (generatePlanUpdate st g).plan.generated_replacement_behavior =
      some (.text g.replacement_behavior) ∧
    (generatePlanUpdate st g).plan.generated_prevention_strategies =
      some (.strategies g.prevention_strategies) ∧
    (generatePlanUpdate st g).plan.generated_reinforcement_plan =
      some (.text g.reinforcement_plan) ∧
    (generatePlanUpdate st g).plan.generated_response_to_behavior =
      some (.text g.response_to_behavior) := by
  refine ⟨rfl, rfl, rfl, rfl, ?_, rfl, rfl, rfl, rfl, rfl⟩
  intro s
  cases s <;> rfl

/-- Claim C9: every revision-creating operation numbers its new record as
1 + the maximum existing revision number for that section and the current
generation version (1 when none exists), hence strictly above every
existing number in that group. -/
theorem claim_C9_numbering (st : Store) (s : SectionName) (c : SectionContent)
    (fb : String) (fbOpt : Option String) (b : Bool) (rv : RevisionRecord)
    (hgv : 1 ≤ st.plan.generation_version) :
    (∃ rec, (aiRevise st s fb c).revisions = st.revisions ++ [rec] ∧
      rec.section_name = s ∧ rec.generation_version = st.plan.generation_version ∧
      rec.revision_number = 1 + maxRevNumber st.revisions s st.plan.generation_version ∧
      ∀ r ∈ st.revisions, r.section_name = s →
        r.generation_version = st.plan.generation_version →
        r.revision_number < rec.revision_number) ∧
    (∃ rec, (manualEdit st s c).revisions = st.revisions ++ [rec] ∧
      rec.section_name = s ∧ rec.generation_version = st.plan.generation_version ∧
      rec.revision_number = 1 + maxRevNumber st.revisions s st.plan.generation_version ∧
      ∀ r ∈ st.revisions, r.section_name = s →
        r.generation_version = st.plan.generation_version →
        r.revision_number < rec.revision_number) ∧
    (∃ rec, (createRevision st s c fbOpt b).revisions = st.revisions ++ [rec] ∧
      rec.section_name = s ∧ rec.generation_version = st.plan.generation_version ∧
      rec.revision_number = 1 + maxRevNumber st.revisions s st.plan.generation_version ∧
      ∀ r ∈ st.revisions, r.section_name = s →
        r.generation_version = st.plan.generation_version →
        r.revision_number < rec.revision_number) ∧
    (∃ rec, (restoreRevision st rv).revisions = st.revisions ++ [rec] ∧
      rec.section_name = rv.section_name ∧
      rec.generation_version = st.plan.generation_version ∧
      rec.revision_number =
        1 + maxRevNumber st.revisions rv.section_name st.plan.generation_version ∧
      ∀ r ∈ st.revisions, r.section_name = rv.section_name →
        r.generation_version = st.plan.generation_version →
        r.revision_number < rec.revision_number) := by
  have hif : (if st.plan.generation_version = 0 then 1 else st.plan.generation_version) =
      st.plan.generation_version := if_neg (by omega)
  refine ⟨⟨_, rfl, rfl, rfl, nextRevisionNumber_eq _ _ _, ?_⟩,
    ⟨_, rfl, rfl, rfl, nextRevisionNumber_eq _ _ _, ?_⟩,
    ⟨_, rfl, rfl, rfl, nextRevisionNumber_eq _ _ _, ?_⟩, ?_⟩
  · intro r hr hs2 hg2
    exact lt_nextRevisionNumber _ _ _ r hr hs2 hg2
  · intro r hr hs2 hg2
    exact lt_nextRevisionNumber _ _ _ r hr hs2 hg2
  · intro r hr hs2 hg2
    exact lt_nextRevisionNumber _ _ _ r hr hs2 hg2
  · refine ⟨⟨rv.section_name, rv.content,
      nextRevisionNumber st.revisions rv.section_name
        (if st.plan.generation_version = 0 then 1 else st.plan.generation_version),
      if st.plan.generation_version = 0 then 1 else st.plan.generation_version,
      some ("Restored from version " ++ toString rv.revision_number), false⟩,
      rfl, rfl, hif, ?_, ?_⟩
    · show nextRevisionNumber st.revisions rv.section_name
        (if st.plan.generation_version = 0 then 1 else st.plan.generation_version) =
          1 + maxRevNumber st.revisions rv.section_name st.plan.generation_version
      rw [hif, nextRevisionNumber_eq]
    · intro r hr hs2 hg2
      show r.revision_number < nextRevisionNumber st.revisions rv.section_name
        (if st.plan.generation_version = 0 then 1 else st.plan.generation_version)
      rw [hif]
      exact lt_nextRevisionNumber _ _ _ r hr hs2 hg2

/-- Witness for C9: the AI-revision conjunct at a concrete store. -/
theorem claim_C9_numbering_witness :
    ∃ rec, (aiRevise baseStore .replacement_behavior "make it simpler"
        (.text "new")).revisions = baseStore.revisions ++ [rec] ∧
      rec.section_name = .replacement_behavior ∧
      rec.generation_version = baseStore.plan.generation_version ∧
      rec.revision_number = 1 + maxRevNumber baseStore.revisions .replacement_behavior
        baseStore.plan.generation_version ∧
      ∀ r ∈ baseStore.revisions, r.section_name = .replacement_behavior →
        r.generation_version = baseStore.plan.generation_version →
        r.revision_number < rec.revision_number :=
  (claim_C9_numbering baseStore .replacement_behavior (.text "new") "make it simpler"
    none false rev1 (by decide)).1

/-! ## Coherence checker (POST /api/plans/coherence-check) -/

/-- The four editable sections, in the key order of the coherence schema. -/
inductive EditableSection
  | replacement_behavior
  | prevention_strategies
  | reinforcement_plan
  | response_to_behavior
deriving DecidableEq, Repr

/-- One per-section entry of the oracle's coherence answer. -/
structure SectionCoherence where
  coherent : Bool
  issue : Option String
  suggestion : Option String
deriving DecidableEq, Repr

/-- The oracle's structured coherence answer: one entry per editable
section. -/
structure CoherenceCheckResult where
  replacement_behavior : SectionCoherence
  prevention_strategies : SectionCoherence
  reinforcement_plan : SectionCoherence
  response_to_behavior : SectionCoherence
deriving DecidableEq, Repr

/-- Entry lookup. -/
def getCoherence (res : CoherenceCheckResult) : EditableSection → SectionCoherence
  | .replacement_behavior => res.replacement_behavior
  | .prevention_strategies => res.prevention_strategies
  | .reinforcement_plan => res.reinforcement_plan
  | .response_to_behavior => res.response_to_behavior

/-- `result[sectionKey] = { coherent: true }`: the whole entry is replaced
(issue and suggestion dropped). -/
def setRevisedCoherent (res : CoherenceCheckResult) : EditableSection → CoherenceCheckResult
  | .replacement_behavior => { res with replacement_behavior := ⟨true, none, none⟩ }
  | .prevention_strategies => { res with prevention_strategies := ⟨true, none, none⟩ }
  | .reinforcement_plan => { res with reinforcement_plan := ⟨true, none, none⟩ }
  | .response_to_behavior => { res with response_to_behavior := ⟨true, none, none⟩ }

/-- The request's revised-section name with the `current_` front removed: an
editable key of the result object, or any other string (then the
`sectionKey in result` test fails and no entry is forced). -/
inductive SectionKey
  | editable (e : EditableSection)
  | other
deriving DecidableEq, Repr

/-- The `if (sectionKey in result)` guard and forced entry. -/
def forceRevised (res : CoherenceCheckResult) : SectionKey → CoherenceCheckResult
  | .editable e => setRevisedCoherent res e
  | .other => res

/-- Key order of `Object.entries(result)`. -/
def editableKeysOrder : List EditableSection :=
  [.replacement_behavior, .prevention_strategies, .reinforcement_plan, .response_to_behavior]

/-- `Object.entries(result).some(([key, value]) => key !== revised &&
!value.coherent)`. -/
def hasIssuesCalc (res : CoherenceCheckResult) (k : SectionKey) : Bool :=
  editableKeysOrder.any
    (fun e => !(decide (SectionKey.editable e = k)) && !(getCoherence res e).coherent)

/-- The JSON body of the coherence-check response. -/
structure CoherenceResponse where
  success : Bool
  hasIssues : Bool
  coherenceCheck : Option CoherenceCheckResult
  errorMsg : Option String
deriving DecidableEq, Repr

/-- The coherence-check route: on oracle success, force the just-revised
entry coherent and compute `hasIssues` over the other entries; on any
failure the catch branch answers success with no issues instead of
raising. -/
def coherenceCheckPOST (k : SectionKey)
    (oracle : Except String CoherenceCheckResult) : CoherenceResponse :=
  match oracle with
  | .error e => ⟨true, false, none, some e⟩
  | .ok obj =>
    let result := forceRevised obj k
    ⟨true, hasIssuesCalc result k, some result, none⟩

/-- Claim C7: the just-revised section is always reported coherent whatever
the oracle said about it, and an oracle failure yields the conservative
success response with `hasIssues = false` and no error raised. -/
theorem claim_C7_coherence (e : EditableSection) (obj : CoherenceCheckResult)
    (msg : String) (k : SectionKey) :
    (∃ res, (coherenceCheckPOST (.editable e) (.ok obj)).coherenceCheck = some res ∧
      getCoherence res e = ⟨true, none, none⟩) ∧
    coherenceCheckPOST k (.error msg) =
      { success := true, hasIssues := false, coherenceCheck := none
      , errorMsg := some msg } := by
  refine ⟨⟨forceRevised obj (.editable e), rfl, ?_⟩, rfl⟩
  cases e <;> rfl

end BehaviorPlanBuilder
